import Mathlib

/-
Verification of the instrumentation decision engine of the
amazon-cloudwatch-agent-operator repository.

The Go sources provide two revisions of pkg/instrumentation/helper.go.
Functions whose two revisions coincide are embedded once at top level;
functions that differ between the revisions are embedded in the namespaces
`V1` (first revision: security-context-aware install decision, endpoint
matching anchored on the scheme separator) and `V2` (second revision:
port-suffixed substring endpoint matching, the per-signal disable/override
decisions, and the value-aware per-variable decision).  The Java mutator
injectJavaagent calls the `V2` functions, matching its call signatures.

Strings are modelled as `List Char` (`Str`); Go's strings.Contains,
strings.Split, strings.Join, strings.EqualFold, strings.HasPrefix and
sort.Strings are given explicit executable embeddings below.
-/

set_option maxRecDepth 40000

abbrev Str := List Char

/-- Converts a Lean string literal to the `List Char` representation used
throughout the embedding. -/
def str (s : String) : Str := s.data

/-- Embedding of Go strings.Contains: `strContains s sub` holds iff `sub`
occurs as a contiguous substring of `s`. -/
def strContains (s sub : Str) : Bool :=
  match s with
  | [] => sub.isEmpty
  | _ :: rest => sub.isPrefixOf s || strContains rest sub

/-- Embedding of Go strings.EqualFold (ASCII case folding suffices for the
values the engine compares). -/
def equalFold (a b : Str) : Bool :=
  decide (a.map Char.toLower = b.map Char.toLower)

/-- First value bound to a key in an association list (used for the pod's
node selector and for the bundle caches). -/
def lookupPairs (ps : List (Str × Str)) (k : Str) : Option Str :=
  match ps with
  | [] => none
  | (k', v) :: rest => if k' = k then some v else lookupPairs rest k

/-- Embedding of Go strings.Join with separator comma. -/
def joinComma : List Str → Str
  | [] => []
  | [s] => s
  | s :: rest => s ++ ',' :: joinComma rest

/-- Embedding of Go strings.Split with separator comma
(in particular the split of the empty string is `[[]]`). -/
def splitOnComma : Str → List Str
  | [] => [[]]
  | ',' :: rest => [] :: splitOnComma rest
  | c :: rest =>
    match splitOnComma rest with
    | [] => [[c]]
    | h :: t => (c :: h) :: t

/-- Go's lexicographic byte order on strings, as a Bool-valued `≤`
(sort.Strings sorts by this order). -/
def strLeb : Str → Str → Bool
  | [], _ => true
  | _ :: _, [] => false
  | a :: as, b :: bs => if a = b then strLeb as bs else decide (a < b)

/-- Insertion into a list sorted by `strLeb`. -/
def insortStr (x : Str) : List Str → List Str
  | [] => [x]
  | y :: ys => if strLeb x y then x :: y :: ys else y :: insortStr x ys

/-- Embedding of Go sort.Strings as an insertion sort by `strLeb`. -/
def sortStr : List Str → List Str
  | [] => []
  | x :: xs => insortStr x (sortStr xs)

/-- corev1.EnvVar: a named environment variable.  `valueFrom` records
whether the value is supplied indirectly (Go's EnvVar.ValueFrom non-nil),
in which case `value` is empty. -/
structure EnvVar where
  name : Str
  value : Str
  valueFrom : Bool
deriving DecidableEq

/-- corev1.SecurityContext restricted to the fields the engine reads. -/
structure SecurityContext where
  runAsUser : Option Int
  runAsNonRoot : Option Bool
deriving DecidableEq

/-- corev1.EnvFromSource: an optional ConfigMap reference and an optional
Secret reference, each by name. -/
structure EnvFromSource where
  configMapRef : Option Str
  secretRef : Option Str
deriving DecidableEq

/-- corev1.VolumeMount restricted to the fields the mutator writes. -/
structure VolumeMount where
  name : Str
  mountPath : Str
deriving DecidableEq

/-- corev1.ResourceRequirements carried opaquely (never inspected by the
engine, only copied onto the init container). -/
structure ResourceRequirements where
  limits : List (Str × Str)
  requests : List (Str × Str)
deriving DecidableEq

/-- corev1.Container restricted to the fields the engine reads or writes. -/
structure Container where
  name : Str
  image : Str
  command : List Str
  env : List EnvVar
  envFrom : List EnvFromSource
  volumeMounts : List VolumeMount
  securityContext : Option SecurityContext
  resources : ResourceRequirements
deriving DecidableEq

/-- corev1.Volume restricted to the fields the mutator writes (an emptyDir
with a size limit). -/
structure Volume where
  name : Str
  sizeLimit : Str
deriving DecidableEq

/-- corev1.PodSpec restricted to the fields the engine reads or writes. -/
structure PodSpec where
  containers : List Container
  initContainers : List Container
  volumes : List Volume
  securityContext : Option SecurityContext
  nodeSelector : List (Str × Str)
deriving DecidableEq

/-- corev1.Pod restricted to the fields the engine reads or writes. -/
structure Pod where
  name : Str
  ns : Str
  spec : PodSpec
deriving DecidableEq

/-- helper.go: cloudwatchAgentStandardEndpoint. -/
def cloudwatchAgentStandardEndpoint : Str := str "cloudwatch-agent.amazon-cloudwatch"

/-- helper.go: cloudwatchAgentWindowsEndpoint. -/
def cloudwatchAgentWindowsEndpoint : Str :=
  str "cloudwatch-agent-windows-headless.amazon-cloudwatch.svc.cluster.local"

/-- helper.go (second revision): cloudwatchAgentPort. -/
def cloudwatchAgentPort : Str := str "4316"

/-- Modelled from the spec: the fixed lookup tables (per-runtime
init-container names, the operator's sidecar and collector container names,
the fixed marker variable) are process-wide constants defined outside the
provided sources; the spec describes them only as a fixed per-runtime set,
the operator's own sidecar, and a fixed marker variable that injectors
always set.  The concrete spellings below are opaque tokens. -/
def initContainerName : Str := str "opentelemetry-auto-instrumentation"

/-- Modelled from the spec: the shared agent volume base name used by the
per-runtime mutators, a fixed constant outside the provided sources. -/
def volumeName : Str := str "opentelemetry-auto-instrumentation"

/-- javaagent.go: javaInitContainerName = initContainerName + "-java". -/
def javaInitContainerName : Str := initContainerName ++ str "-java"

/-- Modelled from the spec: per-runtime init-container name for .NET
(member of the fixed per-runtime set). -/
def dotnetInitContainerName : Str := initContainerName ++ str "-dotnet"

/-- Modelled from the spec: per-runtime init-container name for Node.js
(member of the fixed per-runtime set). -/
def nodejsInitContainerName : Str := initContainerName ++ str "-nodejs"

/-- Modelled from the spec: per-runtime init-container name for Python
(member of the fixed per-runtime set). -/
def pythonInitContainerName : Str := initContainerName ++ str "-python"

/-- Modelled from the spec: per-runtime init-container name for the Apache
agent (member of the fixed per-runtime set). -/
def apacheAgentInitContainerName : Str := str "otel-agent-attach-apache"

/-- Modelled from the spec: clone init-container name for the Apache agent
(member of the fixed per-runtime set). -/
def apacheAgentCloneContainerName : Str := str "otel-agent-copy-apache"

/-- Modelled from the spec: the name of the sidecar container the Go
injector uses (the operator's own sidecar). -/
def sideCarName : Str := str "otc-auto-instrumentation"

/-- Modelled from the spec: naming.Container(), the operator's collector
container name, excluded from the marker-variable scan. -/
def namingContainer : Str := str "otc-container"

/-- Modelled from the spec: constants.EnvNodeName, the fixed marker
variable set in the sidecar and collector containers and looked for by the
idempotency guard. -/
def envNodeName : Str := str "OTEL_NODE_NAME"

/-- javaagent.go: envJavaToolsOptions. -/
def envJavaToolsOptions : Str := str "JAVA_TOOL_OPTIONS"

/-- javaagent.go: javaJVMArgument. -/
def javaJVMArgument : Str := str " -javaagent:/otel-auto-instrumentation-java/javaagent.jar"

/-- javaagent.go: javaVolumeName = volumeName + "-java". -/
def javaVolumeName : Str := volumeName ++ str "-java"

/-- javaagent.go: javaInstrMountPath. -/
def javaInstrMountPath : Str := str "/otel-auto-instrumentation-java"

/-- javaagent.go: javaInstrMountPathWindows. -/
def javaInstrMountPathWindows : Str := str "\\otel-auto-instrumentation-java"

/-- javaagent.go: javaCommandLinux. -/
def javaCommandLinux : List Str :=
  [str "cp", str "/javaagent.jar", javaInstrMountPath ++ str "/javaagent.jar"]

/-- javaagent.go: javaCommandWindows. -/
def javaCommandWindows : List Str :=
  [str "CMD", str "/c", str "copy", str "javaagent.jar", javaInstrMountPathWindows]

/-- helper.go: defaultSize, the 200Mi default volume size (quantities are
carried as their string spellings). -/
def defaultSize : Str := str "200Mi"

/-- helper.go: volumeSize returns the default when no quantity is given. -/
def volumeSize (quantity : Option Str) : Str :=
  match quantity with
  | none => defaultSize
  | some q => q

/-- helper.go: getEnvValue returns the value of the first environment
variable with the given name, or the empty string. -/
def getEnvValue (envs : List EnvVar) (name : Str) : Str :=
  match envs with
  | [] => []
  | e :: rest => if e.name = name then e.value else getEnvValue rest name

/-- helper.go: isApplicationSignalsExplicitlyEnabled checks whether
OTEL_AWS_APPLICATION_SIGNALS_ENABLED is set to "true" (case-insensitive). -/
def isApplicationSignalsExplicitlyEnabled (envs : List EnvVar) : Bool :=
  equalFold (getEnvValue envs (str "OTEL_AWS_APPLICATION_SIGNALS_ENABLED")) (str "true")

/-- helper.go: isInitContainerMissing — no init container of the pod has
the given name. -/
def isInitContainerMissing (pod : Pod) (containerName : Str) : Bool :=
  !(pod.spec.initContainers.any (fun c => c.name = containerName))

/-- helper.go: the fixed list of per-runtime init-container names the
idempotency guard scans for (the slices.Contains argument). -/
def instrumentationInitContainerNames : List Str :=
  [dotnetInitContainerName, javaInitContainerName, nodejsInitContainerName,
   pythonInitContainerName, apacheAgentInitContainerName, apacheAgentCloneContainerName]

/-- helper.go: isAutoInstrumentationInjected — a pod is already
instrumented if any init container carries a per-runtime injector name, or
any regular container is the Go sidecar, or any regular container other
than the collector carries the marker variable. -/
def isAutoInstrumentationInjected (pod : Pod) : Bool :=
  pod.spec.initContainers.any (fun c => instrumentationInitContainerNames.any (fun n => n = c.name))
  || pod.spec.containers.any (fun c =>
       c.name = sideCarName
       || (c.name ≠ namingContainer && c.env.any (fun v => v.name = envNodeName)))

/-- helper.go: findDuplicatedContainers joins all target lists with
commas, splits on commas, and fails with the sorted list of non-empty names
occurring more than once; `none` is success (nil error). -/
def findDuplicatedContainers (ctrs : List Str) : Option (List Str) :=
  let mergedContainers := joinComma ctrs
  let splitContainers := splitOnComma mergedContainers
  let duplicates :=
    sortStr ((splitContainers.dedup).filter
      (fun s => !s.isEmpty && decide (1 < splitContainers.count s)))
  if duplicates = [] then none else some duplicates

/-- The external bundle store for one namespace: ConfigMap and Secret
lookups by name; `none` is a failed fetch (NotFound or transient error). -/
structure Store where
  getConfigMap : Str → Option (List (Str × Str))
  getSecret : Str → Option (List (Str × Str))

/-- A request-scoped bundle cache: bundle name to fetched contents. -/
abbrev Cache := List (Str × List (Str × Str))

/-- First cached contents under a bundle name (Go map lookup). -/
def lookupCache (cache : Cache) (n : Str) : Option (List (Str × Str)) :=
  match cache with
  | [] => none
  | (k, v) :: rest => if k = n then some v else lookupCache rest n

/-- One EnvVar per bundle entry (Go's ConfigMap.Data / Secret.Data
expansion). -/
def bundleToEnvVars (b : List (Str × Str)) : List EnvVar :=
  b.map (fun p => ⟨p.1, p.2, false⟩)

/-- Result of resolveEnvFrom: resolved variables, the two caches, and the
names for which a store fetch was attempted (each Get call in Go). -/
structure ResolveState where
  envs : List EnvVar
  cmCache : Cache
  secCache : Cache
  fetched : List Str
deriving DecidableEq

/-- helper.go resolveEnvFrom, ConfigMap branch of one source: cache hit
appends the cached entries; cache miss fetches, a failed fetch is skipped
and not cached, a successful fetch is appended and cached.  Returns the new
resolved list, the new ConfigMap cache, and the fetch attempts. -/
def processConfigMapRef (st : Store) (ref : Option Str) (envs : List EnvVar) (cm : Cache) :
    List EnvVar × Cache × List Str :=
  match ref with
  | none => (envs, cm, [])
  | some n =>
    match lookupCache cm n with
    | some b => (envs ++ bundleToEnvVars b, cm, [])
    | none =>
      match st.getConfigMap n with
      | some b => (envs ++ bundleToEnvVars b, cm ++ [(n, b)], [n])
      | none => (envs, cm, [n])

/-- helper.go resolveEnvFrom, Secret branch of one source (same shape as
the ConfigMap branch, against the secret cache). -/
def processSecretRef (st : Store) (ref : Option Str) (envs : List EnvVar) (sec : Cache) :
    List EnvVar × Cache × List Str :=
  match ref with
  | none => (envs, sec, [])
  | some n =>
    match lookupCache sec n with
    | some b => (envs ++ bundleToEnvVars b, sec, [])
    | none =>
      match st.getSecret n with
      | some b => (envs ++ bundleToEnvVars b, sec ++ [(n, b)], [n])
      | none => (envs, sec, [n])

/-- helper.go resolveEnvFrom, loop over the envFrom sources: each source's
ConfigMap reference is processed, then its Secret reference. -/
def resolveEnvFromAux (st : Store) (srcs : List EnvFromSource) (envs : List EnvVar)
    (cm sec : Cache) (fetched : List Str) : ResolveState :=
  match srcs with
  | [] => ⟨envs, cm, sec, fetched⟩
  | src :: rest =>
    let (envs1, cm1, f1) := processConfigMapRef st src.configMapRef envs cm
    let (envs2, sec2, f2) := processSecretRef st src.secretRef envs1 sec
    resolveEnvFromAux st rest envs2 cm1 sec2 (fetched ++ f1 ++ f2)

/-- helper.go: resolveEnvFrom fetches the ConfigMap/Secret data referenced
by the envFrom sources and returns it as an EnvVar slice, threading the two
request-scoped caches (the store is already scoped to the pod's
namespace). -/
def resolveEnvFrom (st : Store) (srcs : List EnvFromSource) (cm sec : Cache) : ResolveState :=
  resolveEnvFromAux st srcs [] cm sec []

/-- helper.go: getAllEnvVars combines the container's direct variables with
the envFrom-resolved ones; a resolved variable is appended only when its
name is not among the direct variables (the membership map is built from
the direct variables once, before the loop). -/
def getAllEnvVars (st : Store) (container : Container) (cm sec : Cache) :
    List EnvVar × Cache × Cache :=
  let allEnvs := container.env
  if container.envFrom.isEmpty then (allEnvs, cm, sec)
  else
    let r := resolveEnvFrom st container.envFrom cm sec
    let merged := r.envs.foldl
      (fun acc v => if allEnvs.any (fun d => d.name = v.name) then acc else acc ++ [v])
      allEnvs
    (merged, r.cmCache, r.secCache)

namespace V1

/-- helper.go (first revision): containsCloudWatchAgent checks that a
first-party hostname appears right after a "://" scheme separator anywhere
in the endpoint string. -/
def containsCloudWatchAgent (endpoint : Str) : Bool :=
  strContains endpoint (str "://" ++ cloudwatchAgentStandardEndpoint)
  || strContains endpoint (str "://" ++ cloudwatchAgentWindowsEndpoint)

/-- helper.go (first revision): isApplicationSignalsExplicitlyDisabled —
the flag is set to "false" (case-insensitive). -/
def isApplicationSignalsExplicitlyDisabled (envs : List EnvVar) : Bool :=
  equalFold (getEnvValue envs (str "OTEL_AWS_APPLICATION_SIGNALS_ENABLED")) (str "false")

/-- helper.go (first revision) shouldInjectADOTSDK, pod-level veto: the pod
security context requires non-root but fixes no UID. -/
def podVeto (pod : Pod) : Bool :=
  match pod.spec.securityContext with
  | none => false
  | some sc => decide (sc.runAsNonRoot = some true ∧ sc.runAsUser = none)

/-- helper.go (first revision) shouldInjectADOTSDK: the pod-level
runAsUser, with the sentinel -1 when unset. -/
def podRunAsUserVal (pod : Pod) : Int :=
  match pod.spec.securityContext with
  | none => -1
  | some sc => sc.runAsUser.getD (-1)

/-- helper.go (first revision) shouldInjectADOTSDK, container-level veto:
the container security context requires non-root and the effective UID
(container override, else pod value, sentinel -1 when unset) is -1. -/
def containerVeto (pod : Pod) (container : Container) : Bool :=
  match container.securityContext with
  | none => false
  | some sc =>
    decide (sc.runAsNonRoot = some true ∧ sc.runAsUser.getD (podRunAsUserVal pod) = -1)

/-- helper.go (first revision): shouldInjectADOTSDK — security vetoes
first, then unconditional install when Application Signals is explicitly
enabled, otherwise refusal as soon as one of the four OTLP endpoint
variables is set to a non-first-party value. -/
def shouldInjectADOTSDK (envs : List EnvVar) (pod : Pod) (container : Container) : Bool :=
  if podVeto pod then false
  else if containerVeto pod container then false
  else if isApplicationSignalsExplicitlyEnabled envs then true
  else
    let otlpEndpoint := getEnvValue envs (str "OTEL_EXPORTER_OTLP_ENDPOINT")
    if !otlpEndpoint.isEmpty && !containsCloudWatchAgent otlpEndpoint then false
    else
      let tracesEndpoint := getEnvValue envs (str "OTEL_EXPORTER_OTLP_TRACES_ENDPOINT")
      if !tracesEndpoint.isEmpty && !containsCloudWatchAgent tracesEndpoint then false
      else
        let metricsEndpoint := getEnvValue envs (str "OTEL_EXPORTER_OTLP_METRICS_ENDPOINT")
        if !metricsEndpoint.isEmpty && !containsCloudWatchAgent metricsEndpoint then false
        else
          let logsEndpoint := getEnvValue envs (str "OTEL_EXPORTER_OTLP_LOGS_ENDPOINT")
          if !logsEndpoint.isEmpty && !containsCloudWatchAgent logsEndpoint then false
          else true

/-- helper.go (first revision): shouldInjectEnvVar — never override a set
variable; when Application Signals is explicitly disabled, skip every
OTEL_-prefixed variable; otherwise inject. -/
def shouldInjectEnvVar (envs : List EnvVar) (envName : Str) : Bool :=
  if !(getEnvValue envs envName).isEmpty then false
  else if isApplicationSignalsExplicitlyDisabled envs && (str "OTEL_").isPrefixOf envName then false
  else true

end V1

namespace V2

/-- helper.go (second revision): containsCloudWatchAgent checks for a
first-party hostname immediately followed by the fixed port 4316, anywhere
in the endpoint string. -/
def containsCloudWatchAgent (endpoint : Str) : Bool :=
  strContains endpoint (cloudwatchAgentStandardEndpoint ++ ':' :: cloudwatchAgentPort)
  || strContains endpoint (cloudwatchAgentWindowsEndpoint ++ ':' :: cloudwatchAgentPort)

/-- helper.go (second revision): isApplicationSignalsExplicitlyDisabled —
the flag is "false" (case-insensitive) or not set at all. -/
def isApplicationSignalsExplicitlyDisabled (envs : List EnvVar) : Bool :=
  equalFold (getEnvValue envs (str "OTEL_AWS_APPLICATION_SIGNALS_ENABLED")) (str "false")
  || (getEnvValue envs (str "OTEL_AWS_APPLICATION_SIGNALS_ENABLED")).isEmpty

/-- helper.go (second revision): shouldInjectADOTSDK — refuse only when the
generic or traces endpoint is set to a non-first-party value while
Application Signals is explicitly disabled (or unset). -/
def shouldInjectADOTSDK (envs : List EnvVar) : Bool :=
  let otlpEndpoint := getEnvValue envs (str "OTEL_EXPORTER_OTLP_ENDPOINT")
  if !otlpEndpoint.isEmpty && !containsCloudWatchAgent otlpEndpoint
      && isApplicationSignalsExplicitlyDisabled envs then false
  else
    let tracesEndpoint := getEnvValue envs (str "OTEL_EXPORTER_OTLP_TRACES_ENDPOINT")
    if !tracesEndpoint.isEmpty && !containsCloudWatchAgent tracesEndpoint
        && isApplicationSignalsExplicitlyDisabled envs then false
    else true

/-- helper.go (second revision): shouldDisableMetrics — disable by default;
keep metrics when the metrics endpoint is set, or when the generic endpoint
is third-party while Application Signals is explicitly enabled. -/
def shouldDisableMetrics (envs : List EnvVar) : Bool :=
  let otlpEndpoint := getEnvValue envs (str "OTEL_EXPORTER_OTLP_ENDPOINT")
  if !otlpEndpoint.isEmpty && !containsCloudWatchAgent otlpEndpoint
      && isApplicationSignalsExplicitlyEnabled envs then false
  else if !(getEnvValue envs (str "OTEL_EXPORTER_OTLP_METRICS_ENDPOINT")).isEmpty then false
  else true

/-- helper.go (second revision): shouldDisableLogs — same shape as
shouldDisableMetrics against the logs endpoint. -/
def shouldDisableLogs (envs : List EnvVar) : Bool :=
  let otlpEndpoint := getEnvValue envs (str "OTEL_EXPORTER_OTLP_ENDPOINT")
  if !otlpEndpoint.isEmpty && !containsCloudWatchAgent otlpEndpoint
      && isApplicationSignalsExplicitlyEnabled envs then false
  else if !(getEnvValue envs (str "OTEL_EXPORTER_OTLP_LOGS_ENDPOINT")).isEmpty then false
  else true

/-- helper.go (second revision): shouldOverrideTracesEndpoint — override by
default; keep the user's endpoint when the traces endpoint is set, or when
the generic endpoint is third-party while Application Signals is explicitly
enabled. -/
def shouldOverrideTracesEndpoint (envs : List EnvVar) : Bool :=
  let otlpEndpoint := getEnvValue envs (str "OTEL_EXPORTER_OTLP_ENDPOINT")
  if !otlpEndpoint.isEmpty && !containsCloudWatchAgent otlpEndpoint
      && isApplicationSignalsExplicitlyEnabled envs then false
  else if !(getEnvValue envs (str "OTEL_EXPORTER_OTLP_TRACES_ENDPOINT")).isEmpty then false
  else true

/-- helper.go (second revision): shouldInjectEnvVar — never override a set
variable; the exporter-selector and traces-endpoint names defer to the
per-signal decisions for specific proposed values; any other OTEL_-prefixed
name, and any non-OTEL name, is injected when absent. -/
def shouldInjectEnvVar (envs : List EnvVar) (envName envValue : Str) : Bool :=
  if !(getEnvValue envs envName).isEmpty then false
  else if envName = str "OTEL_METRICS_EXPORTER" then
    if envValue = str "none" then shouldDisableMetrics envs
    else if envValue = str "otlp" then !shouldDisableMetrics envs
    else true
  else if envName = str "OTEL_LOGS_EXPORTER" then
    if envValue = str "none" then shouldDisableLogs envs
    else true
  else if envName = str "OTEL_EXPORTER_OTLP_TRACES_ENDPOINT" then
    shouldOverrideTracesEndpoint envs
  else if envName = str "OTEL_TRACES_EXPORTER" then
    (getEnvValue envs (str "OTEL_EXPORTER_OTLP_TRACES_ENDPOINT")).isEmpty
  else if (str "OTEL_").isPrefixOf envName then
    (getEnvValue envs envName).isEmpty
  else true

end V2

/-- javaagent.go's v1alpha1.Java spec restricted to the fields the mutator
reads: image, proposed variables, volume size limit, resources. -/
structure JavaSpec where
  image : Str
  env : List EnvVar
  volumeSizeLimit : Option Str
  resources : ResourceRequirements
deriving DecidableEq

/-- Modelled from the spec: getIndexOfEnv belongs to the per-runtime
mutator plumbing left outside the provided sources; it returns the index of
the first variable with the given name, or -1 when absent. -/
def getIndexOfEnvAux (envs : List EnvVar) (name : Str) (i : Nat) : Int :=
  match envs with
  | [] => -1
  | e :: rest => if e.name = name then Int.ofNat i else getIndexOfEnvAux rest name (i + 1)

/-- Index of the first variable with the given name, -1 when absent. -/
def getIndexOfEnv (envs : List EnvVar) (name : Str) : Int :=
  getIndexOfEnvAux envs name 0

/-- Modelled from the spec: validateContainerEnv belongs to the per-runtime
mutator, which the spec leaves out of scope; it rejects the target variable
when its value is supplied indirectly (ValueFrom) instead of as a literal,
since the mutator can only append text to a literal value. -/
def validateContainerEnv (envs : List EnvVar) (name : Str) : Option Str :=
  match envs.find? (fun e => e.name = name) with
  | some e =>
    if e.valueFrom then some (str "the container defines env var value via ValueFrom") else none
  | none => none

/-- Modelled from the spec: isWindowsPod belongs to the per-runtime
mutator; a pod is a Windows pod when its node selector pins the OS to
windows. -/
def isWindowsPod (pod : Pod) : Bool :=
  lookupPairs pod.spec.nodeSelector (str "kubernetes.io/os") = some (str "windows")

/-- Replaces the container at an index of the pod. -/
def setContainer (pod : Pod) (i : Nat) (c : Container) : Pod :=
  { pod with spec := { pod.spec with containers := pod.spec.containers.set i c } }

/-- Replaces just the env of the container at an index of the pod. -/
def setContainerEnv (pod : Pod) (i : Nat) (env : List EnvVar) : Pod :=
  match pod.spec.containers.get? i with
  | none => pod
  | some c => setContainer pod i { c with env := env }

/-- javaagent.go: the JAVA_TOOL_OPTIONS update — append a new variable when
absent, otherwise concatenate the javaagent argument onto the existing
value. -/
def appendJVMArg (envs : List EnvVar) : List EnvVar :=
  let idx := getIndexOfEnv envs envJavaToolsOptions
  if idx = -1 then envs ++ [⟨envJavaToolsOptions, javaJVMArgument, false⟩]
  else
    match envs.get? idx.toNat with
    | some e => envs.set idx.toNat ⟨e.name, e.value ++ javaJVMArgument, e.valueFrom⟩
    | none => envs

/-- javaagent.go: the test variable appended unconditionally at the top of
injectJavaagent. -/
def newOperatorVar : EnvVar := ⟨str "NEW_OPERATOR", str "AUTOMONITOR", false⟩

/-- javaagent.go: injectJavaagent — appends NEW_OPERATOR=AUTOMONITOR to the
target container, validates JAVA_TOOL_OPTIONS, evaluates the install
decision, then injects the Java spec variables, the javaagent JVM argument,
the volume mount, and (once per pod) the agent volume and init container.
The error component is `none` for Go's nil error. -/
def injectJavaagent (javaSpec : JavaSpec) (pod : Pod) (index : Nat) : Pod × Option Str :=
  match pod.spec.containers.get? index with
  | none => (pod, none)
  | some container =>
    let env1 := container.env ++ [newOperatorVar]
    match validateContainerEnv env1 envJavaToolsOptions with
    | some err => (setContainerEnv pod index env1, some err)
    | none =>
      if !(V2.shouldInjectADOTSDK env1) then (setContainerEnv pod index env1, none)
      else
        let env2 := javaSpec.env.foldl
          (fun acc e => if V2.shouldInjectEnvVar acc e.name e.value then acc ++ [e] else acc) env1
        let env3 := appendJVMArg env2
        let container' := { container with
          env := env3,
          volumeMounts := container.volumeMounts ++ [⟨javaVolumeName, javaInstrMountPath⟩] }
        let pod1 := setContainer pod index container'
        if isInitContainerMissing pod1 javaInitContainerName then
          let command := if isWindowsPod pod1 then javaCommandWindows else javaCommandLinux
          let pod2 := { pod1 with spec := { pod1.spec with
            volumes := pod1.spec.volumes ++
              [⟨javaVolumeName, volumeSize javaSpec.volumeSizeLimit⟩],
            initContainers := pod1.spec.initContainers ++
              [⟨javaInitContainerName, javaSpec.image, command, [], [], [⟨javaVolumeName, javaInstrMountPath⟩], none, javaSpec.resources⟩] } }
          (pod2, none)
        else (pod1, none)

/-- Modelled from the spec: the caller evaluates alreadyInstrumented before
any mutation, so repeated attempts on the same pod are no-ops; the guard
itself (in the webhook wrapper) is outside the provided sources. -/
def guardedInjectJavaagent (javaSpec : JavaSpec) (pod : Pod) (index : Nat) : Pod × Option Str :=
  if isAutoInstrumentationInjected pod then (pod, none)
  else injectJavaagent javaSpec pod index

/-- Suffix of the endpoint after the first scheme separator, when one
exists. -/
def afterSchemeSep : Str → Option Str
  | [] => none
  | c :: cs =>
    if c = ':' ∧ cs.take 2 = ['/', '/'] then some (cs.drop 2) else afterSchemeSep cs

/-- Modelled from the spec: isFirstPartyEndpoint classifies first-party iff
the authority component — the host taken after the scheme separator, up to
the start of the path — exactly matches one of the fixed first-party
service addresses, optionally followed by the fixed port. -/
def specIsFirstPartyEndpoint (endpoint : Str) : Bool :=
  match afterSchemeSep endpoint with
  | none => false
  | some rest =>
    let authority := rest.takeWhile (fun c => c ≠ '/')
    decide (authority = cloudwatchAgentStandardEndpoint)
    || decide (authority = cloudwatchAgentWindowsEndpoint)
    || decide (authority = cloudwatchAgentStandardEndpoint ++ ':' :: cloudwatchAgentPort)
    || decide (authority = cloudwatchAgentWindowsEndpoint ++ ':' :: cloudwatchAgentPort)

/-- The environment view merge as claimed for getAllEnvVars: expand the
resolved bundle entries in order, appending an entry only when its name is
not already present among the variables accumulated so far. -/
def specMergeEnvFrom (direct resolved : List EnvVar) : List EnvVar :=
  resolved.foldl
    (fun acc v => if acc.any (fun d => d.name = v.name) then acc else acc ++ [v]) direct

/-- The claimed environment view resolver built from `specMergeEnvFrom`. -/
def specGetAllEnvVars (st : Store) (container : Container) (cm sec : Cache) : List EnvVar :=
  specMergeEnvFrom container.env (resolveEnvFrom st container.envFrom cm sec).envs

/-- One endpoint role is acceptable for installation: unset, or routed to
the first-party collector (first-revision classifier). -/
def endpointFirstPartyOrUnset (envs : List EnvVar) (name : Str) : Bool :=
  (getEnvValue envs name).isEmpty || V1.containsCloudWatchAgent (getEnvValue envs name)

/-- The install decision as claimed, absent a security veto: enablement
flag wins, otherwise all four endpoint roles must be unset or
first-party. -/
def specInstallDecision (envs : List EnvVar) : Bool :=
  isApplicationSignalsExplicitlyEnabled envs
  || (endpointFirstPartyOrUnset envs (str "OTEL_EXPORTER_OTLP_ENDPOINT")
      && endpointFirstPartyOrUnset envs (str "OTEL_EXPORTER_OTLP_TRACES_ENDPOINT")
      && endpointFirstPartyOrUnset envs (str "OTEL_EXPORTER_OTLP_METRICS_ENDPOINT")
      && endpointFirstPartyOrUnset envs (str "OTEL_EXPORTER_OTLP_LOGS_ENDPOINT"))

/-- Removes a ConfigMap reference whose fetch would fail: not in the given
initial cache and not available from the store. -/
def dropFailingRefCM (st : Store) (cm : Cache) (r : Option Str) : Option Str :=
  match r with
  | none => none
  | some n => if lookupCache cm n = none ∧ st.getConfigMap n = none then none else some n

/-- Removes a Secret reference whose fetch would fail. -/
def dropFailingRefSec (st : Store) (sec : Cache) (r : Option Str) : Option Str :=
  match r with
  | none => none
  | some n => if lookupCache sec n = none ∧ st.getSecret n = none then none else some n

/-- One envFrom source with its failing bundle references removed. -/
def dropFailingSource (st : Store) (cm sec : Cache) (s : EnvFromSource) : EnvFromSource :=
  ⟨dropFailingRefCM st cm s.configMapRef, dropFailingRefSec st sec s.secretRef⟩

/-- The per-signal disable decision as claimed: disable by default, unless
the role-specific endpoint is already set, or the generic endpoint is
third-party while the enablement flag is true. -/
def specDisableDecision (envs : List EnvVar) (roleEndpoint : Str) : Bool :=
  !(!(getEnvValue envs roleEndpoint).isEmpty
    || (!(getEnvValue envs (str "OTEL_EXPORTER_OTLP_ENDPOINT")).isEmpty
        && !V2.containsCloudWatchAgent (getEnvValue envs (str "OTEL_EXPORTER_OTLP_ENDPOINT"))
        && isApplicationSignalsExplicitlyEnabled envs))

/-- Empty resource requirements, for concrete test values. -/
def emptyResources : ResourceRequirements := ⟨[], []⟩

/-- A plain application container with no env, sources or security
context, for concrete test values. -/
def baseContainer : Container := ⟨str "app", [], [], [], [], [], none, emptyResources⟩

/-- A plain single-container pod, for concrete test values. -/
def basePod : Pod := ⟨str "pod", str "default", ⟨[baseContainer], [], [], none, []⟩⟩

/-- Security constraints requiring non-root without fixing a UID. -/
def nonRootNoUidSC : SecurityContext := ⟨none, some true⟩

/-- Security constraints fixing UID 1000. -/
def uid1000SC : SecurityContext := ⟨some 1000, none⟩

/-- A pod whose pod-level constraints require non-root with no fixed UID. -/
def podNonRootNoUid : Pod :=
  ⟨str "pod", str "default", ⟨[baseContainer], [], [], some nonRootNoUidSC, []⟩⟩

/-- A container that fixes its own UID. -/
def containerWithUid : Container := { baseContainer with securityContext := some uid1000SC }

/-- A container requiring non-root without fixing a UID. -/
def containerNonRootNoUid : Container :=
  { baseContainer with securityContext := some nonRootNoUidSC }

/-- A pod that already carries the Java instrumentation init container. -/
def instrumentedPod : Pod :=
  ⟨str "pod", str "default",
   ⟨[baseContainer], [⟨javaInitContainerName, [], [], [], [], [], none, emptyResources⟩],
    [], none, []⟩⟩

/-- A pod whose only container routes traces to a third-party endpoint. -/
def thirdPartyTracesPod : Pod :=
  ⟨str "pod", str "default",
   ⟨[{ baseContainer with
       env := [⟨str "OTEL_EXPORTER_OTLP_TRACES_ENDPOINT", str "https://thirdparty/v1", false⟩] }],
    [], [], none, []⟩⟩

/-- A Java instrumentation spec with no proposed variables. -/
def emptyJavaSpec : JavaSpec := ⟨[], [], none, emptyResources⟩

/-- A store holding one ConfigMap bundle, every other fetch failing. -/
def w8Store : Store :=
  ⟨fun n => if n = str "cm-good" then some [(str "A", str "1")] else none, fun _ => none⟩

/-- Sources referencing the good bundle and a failing one. -/
def w8Srcs : List EnvFromSource := [⟨some (str "cm-good"), none⟩, ⟨some (str "cm-bad"), none⟩]

/-- A store with two ConfigMap bundles that both define the key X. -/
def cexStore : Store :=
  ⟨fun n =>
    if n = str "b1" then some [(str "X", str "a")]
    else if n = str "b2" then some [(str "X", str "b")]
    else none,
   fun _ => none⟩

/-- A container importing both X-defining bundles with no direct env. -/
def cexContainer : Container :=
  { baseContainer with envFrom := [⟨some (str "b1"), none⟩, ⟨some (str "b2"), none⟩] }

/-- The same container with a direct declaration of X. -/
def cexContainerW : Container :=
  { cexContainer with env := [⟨str "X", str "keep", false⟩] }

theorem getEnvValue_append (a b : List EnvVar) (n : Str) :
    getEnvValue (a ++ b) n =
      if a.any (fun e => e.name = n) then getEnvValue a n else getEnvValue b n := by
  induction a with
  | nil => simp [getEnvValue]
  | cons e a ih =>
    by_cases he : e.name = n
    · simp [getEnvValue, he]
    · simp [getEnvValue, he, ih]

theorem getEnvValue_eq_nil_of_any_false (a : List EnvVar) (n : Str)
    (h : a.any (fun e => e.name = n) = false) : getEnvValue a n = [] := by
  induction a with
  | nil => rfl
  | cons e a ih =>
    simp only [List.any_cons, Bool.or_eq_false_iff, decide_eq_false_iff_not] at h
    simpa [getEnvValue, h.1] using ih h.2

theorem getEnvValue_append_ne (envs : List EnvVar) (v : EnvVar) (n : Str) (h : v.name ≠ n) :
    getEnvValue (envs ++ [v]) n = getEnvValue envs n := by
  rw [getEnvValue_append]
  by_cases ha : envs.any (fun e => e.name = n) = true
  · simp [ha]
  · rw [if_neg (by simp [ha]), getEnvValue_eq_nil_of_any_false envs n (by simpa using ha)]
    simp [getEnvValue, h]

theorem foldl_append_if_filter (p : EnvVar → Bool) (l init : List EnvVar) :
    l.foldl (fun acc v => if p v then acc else acc ++ [v]) init
      = init ++ l.filter (fun v => !p v) := by
  induction l generalizing init with
  | nil => simp
  | cons v l ih =>
    by_cases hp : p v = true
    · simp [List.foldl_cons, hp, ih]
    · simp only [Bool.not_eq_true] at hp
      simp [List.foldl_cons, hp, ih]

/-- Claim C1: the spec and both revisions of containsCloudWatchAgent
disagree: the spec's two examples do hold of the first revision, but the
first revision accepts an anchored occurrence inside the path (authority
evil.example), and the second revision rejects the exact first-party
authority without a port and accepts an unanchored occurrence with the port
inside the path; exact-authority classification is therefore not what
either revision implements. -/
theorem claim_C1_endpoint_divergence :
    V1.containsCloudWatchAgent (str "https://cloudwatch-agent.amazon-cloudwatch:4316") = true
    ∧ V1.containsCloudWatchAgent (str "https://evil.example/cloudwatch-agent.amazon-cloudwatch") = false
    ∧ V1.containsCloudWatchAgent (str "https://evil.example/foo://cloudwatch-agent.amazon-cloudwatch") = true
    ∧ specIsFirstPartyEndpoint (str "https://evil.example/foo://cloudwatch-agent.amazon-cloudwatch") = false
    ∧ V2.containsCloudWatchAgent (str "https://cloudwatch-agent.amazon-cloudwatch") = false
    ∧ specIsFirstPartyEndpoint (str "https://cloudwatch-agent.amazon-cloudwatch") = true
    ∧ V2.containsCloudWatchAgent (str "https://evil.example/cloudwatch-agent.amazon-cloudwatch:4316") = true
    ∧ specIsFirstPartyEndpoint (str "https://evil.example/cloudwatch-agent.amazon-cloudwatch:4316") = false := by
  decide

theorem gateChain (x y : Bool) :
    (if x then false else if y then false else true) = !(y || x) := by
  cases x <;> cases y <;> rfl

/-- Claim C5: shouldDisableMetrics and shouldDisableLogs disable by default
and keep the signal exactly when the role-specific endpoint is set, or the
generic endpoint is third-party while the enablement flag is true; with the
flag true and a third-party generic endpoint, metrics stay enabled. -/
theorem claim_C5_disable_decisions (envs : List EnvVar) :
    (V2.shouldDisableMetrics envs
      = specDisableDecision envs (str "OTEL_EXPORTER_OTLP_METRICS_ENDPOINT"))
    ∧ (V2.shouldDisableLogs envs
      = specDisableDecision envs (str "OTEL_EXPORTER_OTLP_LOGS_ENDPOINT"))
    ∧ V2.shouldDisableMetrics
        [⟨str "OTEL_AWS_APPLICATION_SIGNALS_ENABLED", str "true", false⟩,
         ⟨str "OTEL_EXPORTER_OTLP_ENDPOINT", str "https://thirdparty/v1", false⟩] = false := by
  refine ⟨?_, ?_, by decide⟩
  · simp only [V2.shouldDisableMetrics, specDisableDecision]
    exact gateChain _ _
  · simp only [V2.shouldDisableLogs, specDisableDecision]
    exact gateChain _ _

/-- Claim C6, counterexample: the sampler name OTEL_TRACES_SAMPLER does not
defer to the signal decisions — it is injected although the traces decision
says to keep the user's settings; likewise the metrics exporter-selector
name with a non-standard proposed value is injected although the metrics
decision says to disable. -/
theorem claim_C6_cex :
    V2.shouldInjectEnvVar
      [⟨str "OTEL_EXPORTER_OTLP_TRACES_ENDPOINT", str "http://localhost:4317", false⟩]
      (str "OTEL_TRACES_SAMPLER") (str "xray") = true
    ∧ V2.shouldOverrideTracesEndpoint
      [⟨str "OTEL_EXPORTER_OTLP_TRACES_ENDPOINT", str "http://localhost:4317", false⟩] = false
    ∧ V2.shouldInjectEnvVar [] (str "OTEL_METRICS_EXPORTER") (str "prometheus") = true
    ∧ V2.shouldDisableMetrics [] = true := by
  decide

/-- Claim C6, amended: already-set variables are never overridden; every
name outside the four switch names — including the sampler names — is
injected iff absent; the metrics/logs exporter-selector names defer to the
disable decisions only for the proposed values "none" (and, for metrics,
"otlp" as the negation), the traces-endpoint name defers to the override
decision, and the traces-exporter name to whether a traces endpoint is
set. -/
theorem claim_C6_amended (envs : List EnvVar) (n v : Str) :
    (getEnvValue envs n ≠ [] → V2.shouldInjectEnvVar envs n v = false)
    ∧ (n ∉ [str "OTEL_METRICS_EXPORTER", str "OTEL_LOGS_EXPORTER",
            str "OTEL_EXPORTER_OTLP_TRACES_ENDPOINT", str "OTEL_TRACES_EXPORTER"] →
        V2.shouldInjectEnvVar envs n v = (getEnvValue envs n).isEmpty)
    ∧ (getEnvValue envs n = [] →
        (n = str "OTEL_METRICS_EXPORTER" →
          V2.shouldInjectEnvVar envs n v =
            (if v = str "none" then V2.shouldDisableMetrics envs
             else if v = str "otlp" then !V2.shouldDisableMetrics envs
             else true))
        ∧ (n = str "OTEL_LOGS_EXPORTER" →
          V2.shouldInjectEnvVar envs n v =
            (if v = str "none" then V2.shouldDisableLogs envs else true))
        ∧ (n = str "OTEL_EXPORTER_OTLP_TRACES_ENDPOINT" →
          V2.shouldInjectEnvVar envs n v = V2.shouldOverrideTracesEndpoint envs)
        ∧ (n = str "OTEL_TRACES_EXPORTER" →
          V2.shouldInjectEnvVar envs n v =
            (getEnvValue envs (str "OTEL_EXPORTER_OTLP_TRACES_ENDPOINT")).isEmpty)) := by
  refine ⟨?_, ?_, ?_⟩
  · intro h
    have he : (getEnvValue envs n).isEmpty = false := by
      cases hg : getEnvValue envs n with
      | nil => exact absurd hg h
      | cons a t => rfl
    simp [V2.shouldInjectEnvVar, he]
  · intro hmem
    simp only [List.mem_cons, List.not_mem_nil, or_false, not_or] at hmem
    obtain ⟨h1, h2, h3, h4⟩ := hmem
    cases hv : (getEnvValue envs n).isEmpty with
    | false => simp [V2.shouldInjectEnvVar, hv, h1, h2, h3, h4]
    | true => simp [V2.shouldInjectEnvVar, hv, h1, h2, h3, h4]
  · intro habs
    have hve : (getEnvValue envs n).isEmpty = true := by simp [habs]
    refine ⟨?_, ?_, ?_, ?_⟩ <;> intro hn <;> subst hn
    · simp [V2.shouldInjectEnvVar, hve]
    · simp [V2.shouldInjectEnvVar, hve,
        show ¬(str "OTEL_LOGS_EXPORTER" = str "OTEL_METRICS_EXPORTER") from by decide]
    · simp [V2.shouldInjectEnvVar, hve,
        show ¬(str "OTEL_EXPORTER_OTLP_TRACES_ENDPOINT" = str "OTEL_METRICS_EXPORTER") from by decide,
        show ¬(str "OTEL_EXPORTER_OTLP_TRACES_ENDPOINT" = str "OTEL_LOGS_EXPORTER") from by decide]
    · simp [V2.shouldInjectEnvVar, hve,
        show ¬(str "OTEL_TRACES_EXPORTER" = str "OTEL_METRICS_EXPORTER") from by decide,
        show ¬(str "OTEL_TRACES_EXPORTER" = str "OTEL_LOGS_EXPORTER") from by decide,
        show ¬(str "OTEL_TRACES_EXPORTER" = str "OTEL_EXPORTER_OTLP_TRACES_ENDPOINT") from by decide]

/-- Claim C6, witness: the amended theorem applied to a sampler name on an
empty environment. -/
theorem claim_C6_amended_witness :
    V2.shouldInjectEnvVar [] (str "OTEL_TRACES_SAMPLER") (str "xray")
      = (getEnvValue [] (str "OTEL_TRACES_SAMPLER")).isEmpty :=
  (claim_C6_amended [] (str "OTEL_TRACES_SAMPLER") (str "xray")).2.1 (by decide)

theorem ifchain4 (a1 b1 a2 b2 a3 b3 a4 b4 : Bool) :
    (if !a1 && !b1 then false
     else if !a2 && !b2 then false
     else if !a3 && !b3 then false
     else if !a4 && !b4 then false
     else true)
    = ((((a1 || b1) && (a2 || b2)) && (a3 || b3)) && (a4 || b4)) := by
  cases a1 <;> cases b1 <;> cases a2 <;> cases b2 <;>
    cases a3 <;> cases b3 <;> cases a4 <;> cases b4 <;> rfl

/-- Claim C3: absent the two security vetoes, the first-revision install
decision is the enablement flag, or else the conjunction over the four
endpoint roles of being unset or first-party. -/
theorem claim_C3_install_decision (envs : List EnvVar) (pod : Pod) (container : Container)
    (h1 : V1.podVeto pod = false) (h2 : V1.containerVeto pod container = false) :
    V1.shouldInjectADOTSDK envs pod container = specInstallDecision envs := by
  unfold V1.shouldInjectADOTSDK specInstallDecision endpointFirstPartyOrUnset
  rw [h1, h2]
  simp only [Bool.false_eq_true, if_false]
  cases hen : isApplicationSignalsExplicitlyEnabled envs with
  | true => simp [hen]
  | false =>
    simp only [hen, Bool.false_eq_true, if_false, Bool.false_or]
    exact ifchain4 _ _ _ _ _ _ _ _

/-- Claim C3, witness: with the enablement flag true and a third-party
generic endpoint on a veto-free pod, the decision agrees with the claimed
form (and both are true). -/
theorem claim_C3_install_decision_witness :
    V1.podVeto basePod = false ∧ V1.containerVeto basePod baseContainer = false
    ∧ V1.shouldInjectADOTSDK
        [⟨str "OTEL_AWS_APPLICATION_SIGNALS_ENABLED", str "true", false⟩,
         ⟨str "OTEL_EXPORTER_OTLP_ENDPOINT", str "https://thirdparty/v1", false⟩]
        basePod baseContainer
      = specInstallDecision
        [⟨str "OTEL_AWS_APPLICATION_SIGNALS_ENABLED", str "true", false⟩,
         ⟨str "OTEL_EXPORTER_OTLP_ENDPOINT", str "https://thirdparty/v1", false⟩] :=
  ⟨by decide, by decide,
   claim_C3_install_decision _ basePod baseContainer (by decide) (by decide)⟩

/-- Claim C4: the pod-level veto (non-root required, no pod UID) refuses
regardless of every other input including a container UID; and with the
effective UID resolved container-first, a container-level non-root
requirement with no effective UID also refuses. -/
theorem claim_C4_security_veto (envs : List EnvVar) (pod : Pod) (container : Container) :
    (V1.podVeto pod = true → V1.shouldInjectADOTSDK envs pod container = false)
    ∧ (∀ csc, container.securityContext = some csc → csc.runAsNonRoot = some true →
        csc.runAsUser = none →
        (∀ psc, pod.spec.securityContext = some psc → psc.runAsUser = none) →
        V1.shouldInjectADOTSDK envs pod container = false) := by
  constructor
  · intro h
    simp [V1.shouldInjectADOTSDK, h]
  · intro csc hcsc hnr hnu hpod
    by_cases hp : V1.podVeto pod = true
    · simp [V1.shouldInjectADOTSDK, hp]
    · have hp' : V1.podVeto pod = false := by
        simpa using hp
      have hpv : V1.podRunAsUserVal pod = -1 := by
        unfold V1.podRunAsUserVal
        cases hsc : pod.spec.securityContext with
        | none => rfl
        | some psc => simp [hpod psc hsc]
      have hcv : V1.containerVeto pod container = true := by
        unfold V1.containerVeto
        rw [hcsc]
        simp [hnr, hnu, hpv]
      simp [V1.shouldInjectADOTSDK, hp', hcv]

/-- Claim C4, witness: the pod-level veto fires even with a container UID,
and the container-level veto fires on a pod without a UID. -/
theorem claim_C4_security_veto_witness :
    V1.shouldInjectADOTSDK [] podNonRootNoUid containerWithUid = false
    ∧ V1.shouldInjectADOTSDK [] basePod containerNonRootNoUid = false :=
  ⟨(claim_C4_security_veto [] podNonRootNoUid containerWithUid).1 (by decide),
   (claim_C4_security_veto [] basePod containerNonRootNoUid).2 nonRootNoUidSC rfl rfl rfl
     (fun psc h => Option.noConfusion h)⟩

theorem strLeb_total (a b : Str) : strLeb a b = true ∨ strLeb b a = true := by
  induction a generalizing b with
  | nil => left; rfl
  | cons x xs ih =>
    cases b with
    | nil => right; rfl
    | cons y ys =>
      by_cases hxy : x = y
      · subst hxy
        rcases ih ys with h | h
        · left; simpa [strLeb] using h
        · right; simpa [strLeb] using h
      · rcases lt_trichotomy x y with h | h | h
        · left; simp [strLeb, hxy, h]
        · exact absurd h hxy
        · right; simp [strLeb, Ne.symm hxy, h]

theorem strLeb_trans : ∀ a b c : Str, strLeb a b = true → strLeb b c = true → strLeb a c = true
  | [], _, _, _, _ => rfl
  | _ :: _, [], _, hab, _ => by simp [strLeb] at hab
  | _ :: _, _ :: _, [], _, hbc => by simp [strLeb] at hbc
  | x :: xs, y :: ys, z :: zs, hab, hbc => by
    by_cases hxy : x = y <;> by_cases hyz : y = z
    · subst hxy; subst hyz
      simp only [strLeb, if_pos rfl] at hab hbc ⊢
      exact strLeb_trans xs ys zs hab hbc
    · subst hxy
      simp only [strLeb, if_pos rfl] at hab
      simp only [strLeb, if_neg hyz] at hbc ⊢
      exact hbc
    · subst hyz
      simp only [strLeb, if_neg hxy] at hab ⊢
      exact hab
    · simp only [strLeb, if_neg hxy] at hab
      simp only [strLeb, if_neg hyz] at hbc
      have hxz : x < z := lt_trans (of_decide_eq_true hab) (of_decide_eq_true hbc)
      simp only [strLeb, if_neg (ne_of_lt hxz)]
      exact decide_eq_true hxz

theorem mem_insortStr (x b : Str) (l : List Str) : b ∈ insortStr x l ↔ b = x ∨ b ∈ l := by
  induction l with
  | nil => simp [insortStr]
  | cons y ys ih =>
    rw [insortStr]
    by_cases hxy : strLeb x y = true
    · rw [if_pos hxy]
      simp [List.mem_cons]
    · rw [if_neg hxy]
      simp only [List.mem_cons, ih]
      tauto

theorem pairwise_insortStr (x : Str) (l : List Str)
    (h : l.Pairwise (fun a b => strLeb a b = true)) :
    (insortStr x l).Pairwise (fun a b => strLeb a b = true) := by
  induction l with
  | nil => simp [insortStr]
  | cons y ys ih =>
    rw [insortStr]
    rcases List.pairwise_cons.mp h with ⟨hy, hys⟩
    by_cases hxy : strLeb x y = true
    · rw [if_pos hxy]
      apply List.pairwise_cons.mpr
      refine ⟨?_, h⟩
      intro b hb
      rcases List.mem_cons.mp hb with rfl | hb'
      · exact hxy
      · exact strLeb_trans x y b hxy (hy b hb')
    · rw [if_neg hxy]
      have hyx : strLeb y x = true := (strLeb_total x y).resolve_left hxy
      apply List.pairwise_cons.mpr
      refine ⟨?_, ih hys⟩
      intro b hb
      rcases (mem_insortStr x b ys).mp hb with rfl | hb'
      · exact hyx
      · exact hy b hb'

theorem insortStr_perm (x : Str) (l : List Str) : (insortStr x l).Perm (x :: l) := by
  induction l with
  | nil => exact List.Perm.refl _
  | cons y ys ih =>
    rw [insortStr]
    by_cases hxy : strLeb x y = true
    · rw [if_pos hxy]
    · rw [if_neg hxy]
      exact List.Perm.trans (List.Perm.cons y ih) (List.Perm.swap x y ys)

theorem sortStr_perm (l : List Str) : (sortStr l).Perm l := by
  induction l with
  | nil => exact List.Perm.refl _
  | cons x xs ih =>
    rw [sortStr]
    exact List.Perm.trans (insortStr_perm x (sortStr xs)) (List.Perm.cons x ih)

theorem sortStr_pairwise (l : List Str) :
    (sortStr l).Pairwise (fun a b => strLeb a b = true) := by
  induction l with
  | nil => simp [sortStr]
  | cons x xs ih =>
    rw [sortStr]
    exact pairwise_insortStr x _ ih

/-- Claim C7: validateNoDuplicateTargets splits the comma-joined lists,
ignores empty entries, succeeds iff no non-empty name repeats, and on
failure reports exactly the repeated names, sorted and without duplicates;
including the two concrete examples. -/
theorem claim_C7_duplicate_targets (ctrs : List Str) :
    (findDuplicatedContainers ctrs = none ↔
      ∀ s, s ≠ [] → (splitOnComma (joinComma ctrs)).count s ≤ 1)
    ∧ (∀ d, findDuplicatedContainers ctrs = some d →
        (∀ s, s ∈ d ↔ (s ≠ [] ∧ 1 < (splitOnComma (joinComma ctrs)).count s))
        ∧ d.Pairwise (fun a b => strLeb a b = true) ∧ d.Nodup)
    ∧ findDuplicatedContainers [str "a,b", str "b,c"] = some [str "b"]
    ∧ findDuplicatedContainers [str "", str "a"] = none := by
  set D := sortStr ((splitOnComma (joinComma ctrs)).dedup.filter
    (fun s => !s.isEmpty && decide (1 < (splitOnComma (joinComma ctrs)).count s))) with hD
  have hdef : findDuplicatedContainers ctrs = if D = [] then none else some D := rfl
  have base : ∀ s, s ∈ D ↔ (s ≠ [] ∧ 1 < (splitOnComma (joinComma ctrs)).count s) := by
    intro s
    rw [hD, (sortStr_perm _).mem_iff, List.mem_filter]
    constructor
    · rintro ⟨hmem, hp⟩
      rw [Bool.and_eq_true, Bool.not_eq_true', decide_eq_true_eq] at hp
      refine ⟨?_, hp.2⟩
      intro hnil
      subst hnil
      simp at hp
    · rintro ⟨hne, hcount⟩
      refine ⟨List.mem_dedup.mpr (List.count_pos_iff.mp (by omega)), ?_⟩
      rw [Bool.and_eq_true, Bool.not_eq_true', decide_eq_true_eq]
      refine ⟨?_, hcount⟩
      cases hs : s with
      | nil => exact absurd hs hne
      | cons a t => rfl
  refine ⟨?_, ?_, by decide, by decide⟩
  · constructor
    · intro h s hs
      by_contra hgt
      push_neg at hgt
      have hmem : s ∈ D := (base s).mpr ⟨hs, hgt⟩
      have hDne : D ≠ [] := by
        intro hnil
        rw [hnil] at hmem
        exact List.not_mem_nil s hmem
      rw [hdef, if_neg hDne] at h
      exact Option.noConfusion h
    · intro hall
      have hDnil : D = [] := by
        by_contra hne
        obtain ⟨s, hs⟩ := List.exists_mem_of_ne_nil D hne
        obtain ⟨hsne, hcount⟩ := (base s).mp hs
        have := hall s hsne
        omega
      rw [hdef, if_pos hDnil]
  · intro d hd'
    have hdD : d = D := by
      by_cases hnil : D = []
      · rw [hdef, if_pos hnil] at hd'
        exact Option.noConfusion hd'
      · rw [hdef, if_neg hnil] at hd'
        exact (Option.some.inj hd').symm
    subst hdD
    refine ⟨base, ?_, ?_⟩
    · rw [hD]
      exact sortStr_pairwise _
    · rw [hD]
      exact ((sortStr_perm _).nodup_iff).mpr ((List.nodup_dedup _).filter _)

/-- Claim C7, witness: the characterization applied to the spec's failing
example yields a sorted, duplicate-free report. -/
theorem claim_C7_duplicate_targets_witness :
    findDuplicatedContainers [str "a,b", str "b,c"] = some [str "b"]
    ∧ ([str "b"] : List Str).Pairwise (fun a b => strLeb a b = true)
    ∧ ([str "b"] : List Str).Nodup :=
  ⟨by decide,
   ((claim_C7_duplicate_targets [str "a,b", str "b,c"]).2.1 [str "b"] (by decide)).2.1,
   ((claim_C7_duplicate_targets [str "a,b", str "b,c"]).2.1 [str "b"] (by decide)).2.2⟩

/-- Claim C2, amended: the resolved view is the direct variables followed
by the bundle-resolved variables whose names are not among the DIRECT
variables (not: among all variables accumulated so far); consequently a
directly declared name always resolves to its direct value. -/
theorem claim_C2_amended (st : Store) (cont : Container) (cm sec : Cache) :
    ((getAllEnvVars st cont cm sec).1 =
      cont.env ++ (resolveEnvFrom st cont.envFrom cm sec).envs.filter
        (fun v => !(cont.env.any (fun d => d.name = v.name))))
    ∧ (∀ n, cont.env.any (fun e => e.name = n) = true →
        getEnvValue ((getAllEnvVars st cont cm sec).1) n = getEnvValue cont.env n) := by
  have hmain : (getAllEnvVars st cont cm sec).1 =
      cont.env ++ (resolveEnvFrom st cont.envFrom cm sec).envs.filter
        (fun v => !(cont.env.any (fun d => d.name = v.name))) := by
    unfold getAllEnvVars
    cases hEF : cont.envFrom with
    | nil => simp [resolveEnvFrom, resolveEnvFromAux]
    | cons s rest =>
      simp only [List.isEmpty_cons, Bool.false_eq_true, if_false]
      rw [foldl_append_if_filter (fun v => cont.env.any (fun d => d.name = v.name))]
  refine ⟨hmain, ?_⟩
  intro n hn
  rw [hmain, getEnvValue_append, if_pos hn]

/-- Claim C2, counterexample: with no direct variables and two bundles both
defining X, the code appends both entries (the membership map is not
updated as bundle entries are appended), while the claimed
accumulated-names rule would keep only the first. -/
theorem claim_C2_cex :
    (getAllEnvVars cexStore cexContainer [] []).1 =
      [⟨str "X", str "a", false⟩, ⟨str "X", str "b", false⟩]
    ∧ specGetAllEnvVars cexStore cexContainer [] [] = [⟨str "X", str "a", false⟩]
    ∧ (getAllEnvVars cexStore cexContainer [] []).1
        ≠ specGetAllEnvVars cexStore cexContainer [] [] := by
  exact ⟨by decide, by decide, by decide⟩

/-- Claim C2, witness: a directly declared X keeps its direct value in the
resolved view even with two bundles also defining X. -/
theorem claim_C2_amended_witness :
    getEnvValue ((getAllEnvVars cexStore cexContainerW [] []).1) (str "X")
      = getEnvValue cexContainerW.env (str "X") :=
  (claim_C2_amended cexStore cexContainerW [] []).2 (str "X") (by decide)

theorem shouldInjectADOTSDK_append_newOp (envs : List EnvVar) :
    V2.shouldInjectADOTSDK (envs ++ [newOperatorVar]) = V2.shouldInjectADOTSDK envs := by
  have h1 : getEnvValue (envs ++ [newOperatorVar]) (str "OTEL_EXPORTER_OTLP_ENDPOINT")
      = getEnvValue envs (str "OTEL_EXPORTER_OTLP_ENDPOINT") :=
    getEnvValue_append_ne envs newOperatorVar _ (by decide)
  have h2 : getEnvValue (envs ++ [newOperatorVar]) (str "OTEL_EXPORTER_OTLP_TRACES_ENDPOINT")
      = getEnvValue envs (str "OTEL_EXPORTER_OTLP_TRACES_ENDPOINT") :=
    getEnvValue_append_ne envs newOperatorVar _ (by decide)
  have h3 : getEnvValue (envs ++ [newOperatorVar]) (str "OTEL_AWS_APPLICATION_SIGNALS_ENABLED")
      = getEnvValue envs (str "OTEL_AWS_APPLICATION_SIGNALS_ENABLED") :=
    getEnvValue_append_ne envs newOperatorVar _ (by decide)
  simp only [V2.shouldInjectADOTSDK, V2.isApplicationSignalsExplicitlyDisabled, h1, h2, h3]

theorem validateContainerEnv_append_newOp (envs : List EnvVar) :
    validateContainerEnv (envs ++ [newOperatorVar]) envJavaToolsOptions
      = validateContainerEnv envs envJavaToolsOptions := by
  unfold validateContainerEnv
  rw [List.find?_append]
  cases hf : envs.find? (fun e => e.name = envJavaToolsOptions) with
  | some e => rfl
  | none =>
    have : List.find? (fun e => decide (e.name = envJavaToolsOptions)) [newOperatorVar] = none := by
      decide
    simp [this]

theorem setContainer_initContainers (pod : Pod) (i : Nat) (c : Container) :
    (setContainer pod i c).spec.initContainers = pod.spec.initContainers := rfl

theorem detected_of_java_initContainer (q : Pod)
    (h : ∃ ic ∈ q.spec.initContainers, ic.name = javaInitContainerName) :
    isAutoInstrumentationInjected q = true := by
  obtain ⟨ic, hmem, hname⟩ := h
  unfold isAutoInstrumentationInjected
  rw [Bool.or_eq_true]
  left
  rw [List.any_eq_true]
  refine ⟨ic, hmem, ?_⟩
  rw [List.any_eq_true]
  refine ⟨javaInitContainerName, by decide, ?_⟩
  rw [hname]
  exact decide_eq_true rfl

/-- Claim C10: when the install decision refuses and validation passes,
injectJavaagent still returns early with no error and a pod that differs
from its input in exactly the one appended NEW_OPERATOR=AUTOMONITOR
variable on the target container. -/
theorem claim_C10_frame (javaSpec : JavaSpec) (pod : Pod) (index : Nat) (c : Container)
    (hc : pod.spec.containers.get? index = some c)
    (hval : validateContainerEnv c.env envJavaToolsOptions = none)
    (href : V2.shouldInjectADOTSDK c.env = false) :
    injectJavaagent javaSpec pod index
      = (setContainerEnv pod index (c.env ++ [newOperatorVar]), none) := by
  simp only [injectJavaagent, hc, validateContainerEnv_append_newOp, hval,
    shouldInjectADOTSDK_append_newOp, href, Bool.not_false, if_true]

/-- Claim C10, witness: the frame statement evaluated on a pod whose
container routes traces to a third-party endpoint. -/
theorem claim_C10_frame_witness :
    injectJavaagent emptyJavaSpec thirdPartyTracesPod 0
      = (setContainerEnv thirdPartyTracesPod 0
          ([⟨str "OTEL_EXPORTER_OTLP_TRACES_ENDPOINT", str "https://thirdparty/v1", false⟩]
            ++ [newOperatorVar]), none) :=
  claim_C10_frame emptyJavaSpec thirdPartyTracesPod 0
    { baseContainer with
      env := [⟨str "OTEL_EXPORTER_OTLP_TRACES_ENDPOINT", str "https://thirdparty/v1", false⟩] }
    rfl (by decide) (by decide)

/-- Claim C9: the guarded mutation is a no-op on a pod the idempotency
guard recognizes as already instrumented; and a full (non-early-return)
injection leaves the pod recognized, so the guard fires on every later
attempt. -/
theorem claim_C9_idempotent (javaSpec : JavaSpec) (pod : Pod) (index : Nat) :
    (isAutoInstrumentationInjected pod = true →
      guardedInjectJavaagent javaSpec pod index = (pod, none))
    ∧ (∀ c, pod.spec.containers.get? index = some c →
        validateContainerEnv c.env envJavaToolsOptions = none →
        V2.shouldInjectADOTSDK c.env = true →
        isAutoInstrumentationInjected (injectJavaagent javaSpec pod index).1 = true) := by
  constructor
  · intro h
    simp [guardedInjectJavaagent, h]
  · intro c hc hval hinj
    simp only [injectJavaagent, hc, validateContainerEnv_append_newOp, hval,
      shouldInjectADOTSDK_append_newOp, hinj, Bool.not_true, Bool.false_eq_true, if_false]
    split
    · apply detected_of_java_initContainer
      exact ⟨_, List.mem_append_right _ (List.mem_singleton_self _), rfl⟩
    · rename_i hmiss
      apply detected_of_java_initContainer
      have hany : pod.spec.initContainers.any
          (fun ic => ic.name = javaInitContainerName) = true := by
        by_contra hno
        apply hmiss
        unfold isInitContainerMissing
        rw [setContainer_initContainers]
        simp only [Bool.not_eq_true] at hno
        rw [hno]
        rfl
      obtain ⟨ic, hmem, hdec⟩ := List.any_eq_true.mp hany
      exact ⟨ic, hmem, of_decide_eq_true hdec⟩

/-- Claim C9, witness: an instrumented pod passes through unchanged, and a
fresh pod is recognized as instrumented after a full injection. -/
theorem claim_C9_idempotent_witness :
    guardedInjectJavaagent emptyJavaSpec instrumentedPod 0 = (instrumentedPod, none)
    ∧ isAutoInstrumentationInjected (injectJavaagent emptyJavaSpec basePod 0).1 = true :=
  ⟨(claim_C9_idempotent emptyJavaSpec instrumentedPod 0).1 (by decide),
   (claim_C9_idempotent emptyJavaSpec basePod 0).2 baseContainer rfl (by decide) (by decide)⟩


theorem lookupCache_append_some (c d : Cache) (n : Str) (b : List (Str × Str))
    (h : lookupCache c n = some b) : lookupCache (c ++ d) n = some b := by
  induction c with
  | nil => exact Option.noConfusion h
  | cons kv rest ih =>
    rcases kv with ⟨k, v⟩
    by_cases hk : k = n
    · simp only [List.cons_append, lookupCache, if_pos hk] at h ⊢
      exact h
    · simp only [List.cons_append, lookupCache, if_neg hk] at h ⊢
      exact ih h

theorem lookupCache_append_none (c d : Cache) (n : Str)
    (h : lookupCache c n = none) : lookupCache (c ++ d) n = lookupCache d n := by
  induction c with
  | nil => rfl
  | cons kv rest ih =>
    rcases kv with ⟨k, v⟩
    by_cases hk : k = n
    · simp only [lookupCache, if_pos hk] at h
      exact Option.noConfusion h
    · simp only [List.cons_append, lookupCache, if_neg hk] at h ⊢
      exact ih h

theorem lookupCache_eq_none_of_names (d : Cache) (n : Str)
    (h : ∀ p ∈ d, p.1 ≠ n) : lookupCache d n = none := by
  induction d with
  | nil => rfl
  | cons kv rest ih =>
    rcases kv with ⟨k, v⟩
    have hk : k ≠ n := h (k, v) (List.mem_cons_self _ _)
    simp only [lookupCache, if_neg hk]
    exact ih (fun q hq => h q (List.mem_cons_of_mem _ hq))

theorem processCM_cases (st : Store) (ref : Option Str) (e : List EnvVar) (c : Cache) :
    ∃ d, (processConfigMapRef st ref e c).2.1 = c ++ d
      ∧ ∀ p ∈ d, st.getConfigMap p.1 = some p.2 := by
  cases ref with
  | none =>
    refine ⟨[], by simp [processConfigMapRef], by simp⟩
  | some n =>
    unfold processConfigMapRef
    cases h1 : lookupCache c n with
    | some b =>
      refine ⟨[], by simp [h1], by simp⟩
    | none =>
      cases h2 : st.getConfigMap n with
      | some b =>
        refine ⟨[(n, b)], by simp [h1, h2], ?_⟩
        intro p hp
        rw [List.mem_singleton.mp hp]
        exact h2
      | none =>
        refine ⟨[], by simp [h1, h2], by simp⟩

theorem processSec_cases (st : Store) (ref : Option Str) (e : List EnvVar) (s : Cache) :
    ∃ d, (processSecretRef st ref e s).2.1 = s ++ d
      ∧ ∀ p ∈ d, st.getSecret p.1 = some p.2 := by
  cases ref with
  | none =>
    refine ⟨[], by simp [processSecretRef], by simp⟩
  | some n =>
    unfold processSecretRef
    cases h1 : lookupCache s n with
    | some b =>
      refine ⟨[], by simp [h1], by simp⟩
    | none =>
      cases h2 : st.getSecret n with
      | some b =>
        refine ⟨[(n, b)], by simp [h1, h2], ?_⟩
        intro p hp
        rw [List.mem_singleton.mp hp]
        exact h2
      | none =>
        refine ⟨[], by simp [h1, h2], by simp⟩

theorem resolveAux_cm_extends (st : Store) :
    ∀ (srcs : List EnvFromSource) (e : List EnvVar) (c s : Cache) (f : List Str),
    ∃ d, (resolveEnvFromAux st srcs e c s f).cmCache = c ++ d
      ∧ ∀ p ∈ d, st.getConfigMap p.1 = some p.2 := by
  intro srcs
  induction srcs with
  | nil =>
    intro e c s f
    exact ⟨[], by simp [resolveEnvFromAux], by simp⟩
  | cons src rest ih =>
    intro e c s f
    rcases hcm : processConfigMapRef st src.configMapRef e c with ⟨e1, c1, f1⟩
    rcases hsec : processSecretRef st src.secretRef e1 s with ⟨e2, s2, f2⟩
    have hstep : resolveEnvFromAux st (src :: rest) e c s f
        = resolveEnvFromAux st rest e2 c1 s2 (f ++ f1 ++ f2) := by
      simp only [resolveEnvFromAux, hcm, hsec]
    rw [hstep]
    obtain ⟨d2, hd2, hp2⟩ := ih e2 c1 s2 (f ++ f1 ++ f2)
    obtain ⟨d1, hd1, hp1⟩ := processCM_cases st src.configMapRef e c
    rw [hcm] at hd1
    have hc1 : c1 = c ++ d1 := hd1
    refine ⟨d1 ++ d2, ?_, ?_⟩
    · rw [hd2, hc1, List.append_assoc]
    · intro p hp
      rcases List.mem_append.mp hp with h | h
      · exact hp1 p h
      · exact hp2 p h

theorem resolveAux_sec_extends (st : Store) :
    ∀ (srcs : List EnvFromSource) (e : List EnvVar) (c s : Cache) (f : List Str),
    ∃ d, (resolveEnvFromAux st srcs e c s f).secCache = s ++ d
      ∧ ∀ p ∈ d, st.getSecret p.1 = some p.2 := by
  intro srcs
  induction srcs with
  | nil =>
    intro e c s f
    exact ⟨[], by simp [resolveEnvFromAux], by simp⟩
  | cons src rest ih =>
    intro e c s f
    rcases hcm : processConfigMapRef st src.configMapRef e c with ⟨e1, c1, f1⟩
    rcases hsec : processSecretRef st src.secretRef e1 s with ⟨e2, s2, f2⟩
    have hstep : resolveEnvFromAux st (src :: rest) e c s f
        = resolveEnvFromAux st rest e2 c1 s2 (f ++ f1 ++ f2) := by
      simp only [resolveEnvFromAux, hcm, hsec]
    rw [hstep]
    obtain ⟨d2, hd2, hp2⟩ := ih e2 c1 s2 (f ++ f1 ++ f2)
    obtain ⟨d1, hd1, hp1⟩ := processSec_cases st src.secretRef e1 s
    rw [hsec] at hd1
    have hs2 : s2 = s ++ d1 := hd1
    refine ⟨d1 ++ d2, ?_, ?_⟩
    · rw [hd2, hs2, List.append_assoc]
    · intro p hp
      rcases List.mem_append.mp hp with h | h
      · exact hp1 p h
      · exact hp2 p h

theorem resolveAux_cm_preserves_some (st : Store) (srcs : List EnvFromSource)
    (e : List EnvVar) (c s : Cache) (f : List Str) (n : Str) (b : List (Str × Str))
    (h : lookupCache c n = some b) :
    lookupCache (resolveEnvFromAux st srcs e c s f).cmCache n = some b := by
  obtain ⟨d, hd, -⟩ := resolveAux_cm_extends st srcs e c s f
  rw [hd]
  exact lookupCache_append_some _ _ _ _ h

theorem resolveAux_cm_fail_lookup (st : Store) (srcs : List EnvFromSource)
    (e : List EnvVar) (c s : Cache) (f : List Str) (n : Str)
    (hfail : st.getConfigMap n = none) :
    lookupCache (resolveEnvFromAux st srcs e c s f).cmCache n = lookupCache c n := by
  obtain ⟨d, hd, hp⟩ := resolveAux_cm_extends st srcs e c s f
  rw [hd]
  cases hl : lookupCache c n with
  | some b => exact lookupCache_append_some _ _ _ _ hl
  | none =>
    rw [lookupCache_append_none _ _ _ hl]
    refine lookupCache_eq_none_of_names _ _ ?_
    intro p hpd he
    have hps := hp p hpd
    rw [he, hfail] at hps
    exact Option.noConfusion hps

theorem resolveAux_sec_fail_lookup (st : Store) (srcs : List EnvFromSource)
    (e : List EnvVar) (c s : Cache) (f : List Str) (n : Str)
    (hfail : st.getSecret n = none) :
    lookupCache (resolveEnvFromAux st srcs e c s f).secCache n = lookupCache s n := by
  obtain ⟨d, hd, hp⟩ := resolveAux_sec_extends st srcs e c s f
  rw [hd]
  cases hl : lookupCache s n with
  | some b => exact lookupCache_append_some _ _ _ _ hl
  | none =>
    rw [lookupCache_append_none _ _ _ hl]
    refine lookupCache_eq_none_of_names _ _ ?_
    intro p hpd he
    have hps := hp p hpd
    rw [he, hfail] at hps
    exact Option.noConfusion hps

theorem resolveAux_cm_success_cached (st : Store) :
    ∀ (srcs : List EnvFromSource) (e : List EnvVar) (c s : Cache) (f : List Str)
      (n : Str) (b : List (Str × Str)),
    st.getConfigMap n = some b →
    (lookupCache c n = none ∨ lookupCache c n = some b) →
    (∃ src ∈ srcs, src.configMapRef = some n) →
    lookupCache (resolveEnvFromAux st srcs e c s f).cmCache n = some b := by
  intro srcs
  induction srcs with
  | nil =>
    intro e c s f n b _ _ hex
    obtain ⟨src, hmem, -⟩ := hex
    exact absurd hmem (List.not_mem_nil src)
  | cons src rest ih =>
    intro e c s f n b hst hor hex
    rcases hcm : processConfigMapRef st src.configMapRef e c with ⟨e1, c1, f1⟩
    rcases hsec : processSecretRef st src.secretRef e1 s with ⟨e2, s2, f2⟩
    have hstep : resolveEnvFromAux st (src :: rest) e c s f
        = resolveEnvFromAux st rest e2 c1 s2 (f ++ f1 ++ f2) := by
      simp only [resolveEnvFromAux, hcm, hsec]
    rw [hstep]
    have hc1' : c1 = (processConfigMapRef st src.configMapRef e c).2.1 := by rw [hcm]
    by_cases hsrc : src.configMapRef = some n
    · have hc1 : lookupCache c1 n = some b := by
        rw [hc1', hsrc]
        rcases hor with hnone | hsome
        · simp only [processConfigMapRef, hnone, hst]
          rw [lookupCache_append_none _ _ _ hnone]
          simp [lookupCache]
        · simp only [processConfigMapRef, hsome]
      exact resolveAux_cm_preserves_some st rest e2 c1 s2 _ n b hc1
    · have hkeep : lookupCache c1 n = lookupCache c n := by
        rw [hc1']
        cases href : src.configMapRef with
        | none => simp [processConfigMapRef]
        | some m =>
          have hmn : m ≠ n := fun he => hsrc (by rw [href, he])
          rcases hin : lookupCache c m with _ | b'
          · rcases hstm : st.getConfigMap m with _ | bm
            · simp [processConfigMapRef, hin, hstm]
            · simp only [processConfigMapRef, hin, hstm]
              cases hl : lookupCache c n with
              | some bb =>
                rw [lookupCache_append_some _ _ _ _ hl]
              | none =>
                rw [lookupCache_append_none _ _ _ hl]
                refine lookupCache_eq_none_of_names _ _ ?_
                intro p hp
                rw [List.mem_singleton.mp hp]
                exact hmn
          · simp [processConfigMapRef, hin]
      obtain ⟨src', hmem, href'⟩ := hex
      rcases List.mem_cons.mp hmem with rfl | hmem'
      · exact absurd href' hsrc
      · exact ih e2 c1 s2 _ n b hst (by rw [hkeep]; exact hor) ⟨src', hmem', href'⟩

theorem processCM_drop (st : Store) (cm : Cache) (ref : Option Str) (e : List EnvVar) (c : Cache)
    (hinv : ∀ n, st.getConfigMap n = none → lookupCache c n = lookupCache cm n) :
    (processConfigMapRef st (dropFailingRefCM st cm ref) e c).1
      = (processConfigMapRef st ref e c).1
    ∧ (processConfigMapRef st (dropFailingRefCM st cm ref) e c).2.1
      = (processConfigMapRef st ref e c).2.1 := by
  cases ref with
  | none => exact ⟨rfl, rfl⟩
  | some n =>
    simp only [dropFailingRefCM]
    by_cases hdrop : lookupCache cm n = none ∧ st.getConfigMap n = none
    · rw [if_pos hdrop]
      have hcn : lookupCache c n = none := by rw [hinv n hdrop.2, hdrop.1]
      constructor
      · simp [processConfigMapRef, hcn, hdrop.2]
      · simp [processConfigMapRef, hcn, hdrop.2]
    · rw [if_neg hdrop]
      exact ⟨rfl, rfl⟩

theorem processSec_drop (st : Store) (sec : Cache) (ref : Option Str) (e : List EnvVar) (s : Cache)
    (hinv : ∀ n, st.getSecret n = none → lookupCache s n = lookupCache sec n) :
    (processSecretRef st (dropFailingRefSec st sec ref) e s).1
      = (processSecretRef st ref e s).1
    ∧ (processSecretRef st (dropFailingRefSec st sec ref) e s).2.1
      = (processSecretRef st ref e s).2.1 := by
  cases ref with
  | none => exact ⟨rfl, rfl⟩
  | some n =>
    simp only [dropFailingRefSec]
    by_cases hdrop : lookupCache sec n = none ∧ st.getSecret n = none
    · rw [if_pos hdrop]
      have hcn : lookupCache s n = none := by rw [hinv n hdrop.2, hdrop.1]
      constructor
      · simp [processSecretRef, hcn, hdrop.2]
      · simp [processSecretRef, hcn, hdrop.2]
    · rw [if_neg hdrop]
      exact ⟨rfl, rfl⟩

theorem resolveAux_drop_equiv (st : Store) (cm sec : Cache) :
    ∀ (srcs : List EnvFromSource) (e : List EnvVar) (c s : Cache) (f f' : List Str),
    (∀ n, st.getConfigMap n = none → lookupCache c n = lookupCache cm n) →
    (∀ n, st.getSecret n = none → lookupCache s n = lookupCache sec n) →
    ((resolveEnvFromAux st (srcs.map (dropFailingSource st cm sec)) e c s f).envs
        = (resolveEnvFromAux st srcs e c s f').envs
      ∧ (resolveEnvFromAux st (srcs.map (dropFailingSource st cm sec)) e c s f).cmCache
        = (resolveEnvFromAux st srcs e c s f').cmCache
      ∧ (resolveEnvFromAux st (srcs.map (dropFailingSource st cm sec)) e c s f).secCache
        = (resolveEnvFromAux st srcs e c s f').secCache) := by
  intro srcs
  induction srcs with
  | nil =>
    intro e c s f f' _ _
    exact ⟨rfl, rfl, rfl⟩
  | cons src rest ih =>
    intro e c s f f' hc hs
    rcases hcmR : processConfigMapRef st src.configMapRef e c with ⟨e1, c1, f1⟩
    rcases hcmL : processConfigMapRef st (dropFailingRefCM st cm src.configMapRef) e c
      with ⟨e1L, c1L, f1L⟩
    obtain ⟨hpe, hpc⟩ := processCM_drop st cm src.configMapRef e c hc
    rw [hcmL, hcmR] at hpe hpc
    have he1 : e1L = e1 := hpe
    have hc1 : c1L = c1 := hpc
    rw [he1, hc1] at hcmL
    rcases hsecR : processSecretRef st src.secretRef e1 s with ⟨e2, s2, f2⟩
    rcases hsecL : processSecretRef st (dropFailingRefSec st sec src.secretRef) e1 s
      with ⟨e2L, s2L, f2L⟩
    obtain ⟨hqe, hqs⟩ := processSec_drop st sec src.secretRef e1 s hs
    rw [hsecL, hsecR] at hqe hqs
    have he2 : e2L = e2 := hqe
    have hs2 : s2L = s2 := hqs
    rw [he2, hs2] at hsecL
    have hstepR : resolveEnvFromAux st (src :: rest) e c s f'
        = resolveEnvFromAux st rest e2 c1 s2 (f' ++ f1 ++ f2) := by
      simp only [resolveEnvFromAux, hcmR, hsecR]
    have hstepL : resolveEnvFromAux st ((src :: rest).map (dropFailingSource st cm sec)) e c s f
        = resolveEnvFromAux st (rest.map (dropFailingSource st cm sec)) e2 c1 s2
            (f ++ f1L ++ f2L) := by
      simp only [List.map_cons, resolveEnvFromAux, dropFailingSource, hcmL, hsecL]
    rw [hstepL, hstepR]
    apply ih
    · intro n hn
      obtain ⟨d, hd, hp⟩ := processCM_cases st src.configMapRef e c
      rw [hcmR] at hd
      have hcd : c1 = c ++ d := hd
      rw [hcd]
      cases hl : lookupCache c n with
      | some b => rw [lookupCache_append_some _ _ _ _ hl, ← hc n hn, hl]
      | none =>
        rw [lookupCache_append_none _ _ _ hl, ← hc n hn, hl]
        refine lookupCache_eq_none_of_names _ _ ?_
        intro p hpmem he
        have hps := hp p hpmem
        rw [he, hn] at hps
        exact Option.noConfusion hps
    · intro n hn
      obtain ⟨d, hd, hp⟩ := processSec_cases st src.secretRef e1 s
      rw [hsecR] at hd
      have hsd : s2 = s ++ d := hd
      rw [hsd]
      cases hl : lookupCache s n with
      | some b => rw [lookupCache_append_some _ _ _ _ hl, ← hs n hn, hl]
      | none =>
        rw [lookupCache_append_none _ _ _ hl, ← hs n hn, hl]
        refine lookupCache_eq_none_of_names _ _ ?_
        intro p hpmem he
        have hps := hp p hpmem
        rw [he, hn] at hps
        exact Option.noConfusion hps

/-- Claim C8: removing the failing bundle references leaves the resolved
variables and both final caches unchanged (a failed fetch contributes
nothing and does not abort the rest); a failing bundle name is never added
to its cache; a successfully fetched referenced bundle ends up cached under
its name; and resolving a source whose bundle is cached performs no fetch
and reuses the cached contents. -/
theorem claim_C8_soft_failure (st : Store) (srcs : List EnvFromSource) (cm sec : Cache) :
    ((resolveEnvFrom st (srcs.map (dropFailingSource st cm sec)) cm sec).envs
        = (resolveEnvFrom st srcs cm sec).envs
      ∧ (resolveEnvFrom st (srcs.map (dropFailingSource st cm sec)) cm sec).cmCache
        = (resolveEnvFrom st srcs cm sec).cmCache
      ∧ (resolveEnvFrom st (srcs.map (dropFailingSource st cm sec)) cm sec).secCache
        = (resolveEnvFrom st srcs cm sec).secCache)
    ∧ (∀ n, st.getConfigMap n = none →
        lookupCache (resolveEnvFrom st srcs cm sec).cmCache n = lookupCache cm n)
    ∧ (∀ n, st.getSecret n = none →
        lookupCache (resolveEnvFrom st srcs cm sec).secCache n = lookupCache sec n)
    ∧ (∀ n b, (∃ src ∈ srcs, src.configMapRef = some n) → st.getConfigMap n = some b →
        lookupCache cm n = none →
        lookupCache (resolveEnvFrom st srcs cm sec).cmCache n = some b)
    ∧ (∀ n b cmc secc, lookupCache cmc n = some b →
        (resolveEnvFrom st [⟨some n, none⟩] cmc secc).fetched = []
        ∧ (resolveEnvFrom st [⟨some n, none⟩] cmc secc).envs = bundleToEnvVars b) := by
  refine ⟨?_, ?_, ?_, ?_, ?_⟩
  · exact resolveAux_drop_equiv st cm sec srcs [] cm sec [] []
      (fun n _ => rfl) (fun n _ => rfl)
  · intro n hn
    exact resolveAux_cm_fail_lookup st srcs [] cm sec [] n hn
  · intro n hn
    exact resolveAux_sec_fail_lookup st srcs [] cm sec [] n hn
  · intro n b hex hst hnone
    exact resolveAux_cm_success_cached st srcs [] cm sec [] n b hst (Or.inl hnone) hex
  · intro n b cmc secc h
    constructor <;>
      simp [resolveEnvFrom, resolveEnvFromAux, processConfigMapRef, processSecretRef, h]

/-- Claim C8, witness: with one good bundle and one failing bundle, the
failing name stays uncached, the good one is cached under its name, and the
resolved variables equal those with the failing reference absent. -/
theorem claim_C8_soft_failure_witness :
    lookupCache (resolveEnvFrom w8Store w8Srcs [] []).cmCache (str "cm-bad")
      = lookupCache ([] : Cache) (str "cm-bad")
    ∧ lookupCache (resolveEnvFrom w8Store w8Srcs [] []).cmCache (str "cm-good")
      = some [(str "A", str "1")]
    ∧ (resolveEnvFrom w8Store (w8Srcs.map (dropFailingSource w8Store [] [])) [] []).envs
      = (resolveEnvFrom w8Store w8Srcs [] []).envs :=
  ⟨(claim_C8_soft_failure w8Store w8Srcs [] []).2.1 (str "cm-bad") (by decide),
   (claim_C8_soft_failure w8Store w8Srcs [] []).2.2.2.1 (str "cm-good") [(str "A", str "1")]
     ⟨⟨some (str "cm-good"), none⟩, by decide, rfl⟩ (by decide) rfl,
   (claim_C8_soft_failure w8Store w8Srcs [] []).1.1⟩
